import Mathlib

/-!
# OCR document extraction: a verification model

A shallow embedding of the ocr-documents repository. The frontend upload
component and results table are translated from the TypeScript sources
(src/unnamed/part_000 and src/frontend-new/app/components/ResultsTable.tsx).
The backend extraction pipeline (the README's backend/config.py,
backend/ocr_service.py and backend/mrz_parser.py) is not among the
repository's files, so the pipeline definitions below are modelled from the
specification and are marked as such.
-/

namespace OcrDocs

/-! ## Frontend upload component (src/unnamed/part_000, DocumentUpload) -/

/-- A file as the browser hands it to the component: its name and byte size. -/
structure UploadFile where
  name : String
  size : Nat
deriving DecidableEq

/-- The document-type summaries the component fetches from the backend
(interface DocumentType, src/unnamed/part_000 lines 6-10). -/
structure DocumentType where
  key : String
  name : String
  fields_count : Nat
deriving DecidableEq

/-- The component state the upload flow reads and writes (the useState hooks
of DocumentUpload): the chosen type key (the empty string when none is
chosen), the chosen file (none when no file is selected), the uploading flag
and the status line. -/
structure UploadState where
  selectedType : String
  selectedFile : Option UploadFile
  uploading : Bool
  uploadStatus : String
deriving DecidableEq

/-- A POST to the upload endpoint: the FormData built in handleUpload always
carries a file part and a document_type part (lines 82-84). -/
structure UploadRequest where
  file : UploadFile
  document_type : String
deriving DecidableEq

/-- handleDrop (lines 56-64): takes the dropped file list and selects the
first file when there is one. No extension, MIME-type or size check appears
on this path. -/
def handleDrop (s : UploadState) (files : List UploadFile) : UploadState :=
  match files with
  | [] => s
  | f :: _ => { s with selectedFile := some f }

/-- handleFileSelect (lines 66-71): the same first-file selection for the
browse dialog's change event. -/
def handleFileSelect (s : UploadState) (files : List UploadFile) : UploadState :=
  match files with
  | [] => s
  | f :: _ => { s with selectedFile := some f }

/-- The accept attribute of the hidden file input (line 174), as the list of
extensions it names. It configures the browse dialog only; none of the
handlers consult it. -/
def fileInputAccept : List (List Char) :=
  [['.', 'p', 'd', 'f'], ['.', 'p', 'n', 'g'], ['.', 'j', 'p', 'g'],
    ['.', 'j', 'p', 'e', 'g']]

/-- Whether a file's name ends in one of the extensions the accept filter
lists. -/
def matchesAccept (f : UploadFile) : Bool :=
  fileInputAccept.any fun ext => ext.isSuffixOf f.name.toList

/-- The Max 10MB limit the drop area's caption states (line 185), in bytes. -/
def maxUploadSizeBytes : Nat := 10 * 1024 * 1024

/-- handleUpload (lines 73-106): with no file selected or an empty type key it
only sets the prompt message and sends nothing; otherwise it marks the state
as uploading and issues the POST carrying the file and document_type parts. -/
def handleUpload (s : UploadState) : UploadState × Option UploadRequest :=
  match s.selectedFile with
  | none =>
    ({ s with uploadStatus := "Please select both a document type and file" }, none)
  | some f =>
    if s.selectedType = "" then
      ({ s with uploadStatus := "Please select both a document type and file" }, none)
    else
      ({ s with uploading := true, uploadStatus := "Uploading..." },
        some { file := f, document_type := s.selectedType })

/-- The disabled condition of the submit button (line 194). -/
def uploadButtonDisabled (s : UploadState) : Bool :=
  s.selectedFile.isNone || s.selectedType == "" || s.uploading

/-! ## Results table (src/frontend-new/app/components/ResultsTable.tsx) -/

/-- interface ExtractedField (ResultsTable.tsx lines 7-12); the confidence is
kept as a rational number. A null field_value means the field was not found. -/
structure ExtractedField where
  field_name : String
  field_value : Option String
  confidence : ℚ
  page_number : Nat
deriving DecidableEq

/-- The value cell of an expanded row (line 210): field.field_value with the
JavaScript falsy fallback, under which null and the empty string both render
the Not found placeholder. -/
def renderFieldValue (v : Option String) : String :=
  match v with
  | none => "Not found"
  | some s => if s = "" then "Not found" else s

/-! ## Pipeline model

The backend pipeline is not among the repository's files; the definitions in
the rest of this file are modelled from the specification. -/

/-- Modelled from the spec: the extraction strategies a FieldSpec can declare
(spec section 3); the backend config module that declares them is missing
from the repository files. -/
inductive Strategy
  | keywordAnchored
  | positionalRegex
  | mrzDerived
  | fixedOffset
deriving DecidableEq

/-- Modelled from the spec: the expected data shape of a field (spec
section 3). -/
inductive DataShape
  | string
  | date
  | number
  | enumeratedSet
deriving DecidableEq

/-- Modelled from the spec: FieldSpec (spec section 3) - field name,
extraction strategy, expected data shape and the required flag; the backend
config module that holds the concrete schemas is missing from the repository
files. -/
structure FieldSpec where
  name : String
  strategy : Strategy
  shape : DataShape
  required : Bool
deriving DecidableEq

/-- Modelled from the spec: what the Field Mapper's per-field strategies find
for one field name - nothing, or a value with its mapper confidence and
source page. -/
abbrev Evidence := String → Option (String × ℚ × Nat)

/-- Modelled from the spec: the Field Mapper (spec section 4.5; the backend
ocr_service module is missing from the repository files). It emits one
ExtractedField per FieldSpec of the schema, in schema order; a field with no
matching evidence yields value null with confidence 0, which is not an
error. -/
def mapFields (schema : List FieldSpec) (evidence : Evidence) :
    List ExtractedField :=
  schema.map fun fs =>
    match evidence fs.name with
    | some (v, c, p) =>
      { field_name := fs.name, field_value := some v, confidence := c,
        page_number := p }
    | none =>
      { field_name := fs.name, field_value := none, confidence := 0,
        page_number := 0 }

/-- Modelled from the spec: the Confidence Aggregator (spec section 4.6) -
overall confidence is the arithmetic mean of the non-null fields'
confidences, and 0 when no field is non-null. -/
def overallConfidence (fields : List ExtractedField) : ℚ :=
  let nn := fields.filter fun f => f.field_value.isSome
  if nn.length = 0 then 0 else (nn.map fun f => f.confidence).sum / nn.length

/-- Modelled from the spec: the status enum of section 4.6. The spec's
`partial` status is named partialResult here because `partial` is a reserved
word in Lean. -/
inductive Status
  | pending
  | processing
  | done
  | partialResult
  | failed
deriving DecidableEq

/-- Modelled from the spec: the Status Resolver (spec section 4.6) for a run
that completes without an unrecoverable error (the `failed` transition is
error-driven and happens outside this function). The input pairs each
FieldSpec with the value extracted for it. The transition rules give `done`
when every required field is non-null; the blank-page scenario of section 8
assigns the `partial` status to a completed run whose required fields are all
null, so any completed run with a null required field resolves to
partialResult. -/
def resolveStatus (run : List (FieldSpec × Option String)) : Status :=
  if run.all fun p => !p.1.required || p.2.isSome then Status.done
  else Status.partialResult

/-- Modelled from the spec: the status transitions of section 4.6 - pending
to processing when the pipeline accepts the document, processing to one of
the three terminal statuses; nothing leaves a terminal status. -/
inductive StatusStep : Status → Status → Prop
  | accept : StatusStep Status.pending Status.processing
  | toDone : StatusStep Status.processing Status.done
  | toPartialResult : StatusStep Status.processing Status.partialResult
  | toFailed : StatusStep Status.processing Status.failed

/-- Rank of a status along the pipeline's lifecycle. -/
def statusRank : Status → Nat
  | Status.pending => 0
  | Status.processing => 1
  | Status.done => 2
  | Status.partialResult => 2
  | Status.failed => 2

/-- The terminal statuses of section 4.6. -/
def isTerminal : Status → Bool
  | Status.done => true
  | Status.partialResult => true
  | Status.failed => true
  | Status.pending => false
  | Status.processing => false

/-! ## MRZ decoder model (spec section 4.4)

The backend mrz_parser module is missing from the repository files; the
2-line 44-character machine-readable-zone grid below is modelled from the
spec's words. MRZ lines are lists of characters from the restricted
alphabet. -/

/-- A run of MRZ characters. -/
abbrev MrzChars := List Char

/-- Modelled from the spec: character values for the weighted mod-10 check
digit (spec section 4.4) - digits keep their value, letters map to their
alphabetic value (A is 10 through Z is 35), and the filler < counts as 0. -/
def charVal (c : Char) : Nat :=
  if '0' ≤ c ∧ c ≤ '9' then c.toNat - '0'.toNat
  else if 'A' ≤ c ∧ c ≤ 'Z' then c.toNat - 'A'.toNat + 10
  else 0

/-- The 7-3-1 weight cycle of the standard check-digit algorithm. -/
def mrzWeight (i : Nat) : Nat :=
  if i % 3 = 0 then 7 else if i % 3 = 1 then 3 else 1

/-- Modelled from the spec: the standard weighted mod-10 check digit over a
character run. -/
def checkDigit (s : MrzChars) : Nat :=
  ((s.enum.map fun p => mrzWeight p.1 * charVal p.2).sum) % 10

/-- The character a check digit is printed as. -/
def digitChar (n : Nat) : Char := Char.ofNat ('0'.toNat + n % 10)

/-- Right-pad a field to its fixed width with the < filler. -/
def padTrail (l : MrzChars) (n : Nat) : MrzChars :=
  l ++ List.replicate (n - l.length) '<'

/-- Strip the trailing < filler from a fixed-width field. -/
def stripTrail (l : MrzChars) : MrzChars :=
  (l.reverse.dropWhile fun c => c == '<').reverse

/-- Spaces become the < filler inside the MRZ name field. -/
def nameToMrz (l : MrzChars) : MrzChars :=
  l.map fun c => if c = ' ' then '<' else c

/-- Fillers read back as spaces when a name field is decoded. -/
def mrzToName (l : MrzChars) : MrzChars :=
  l.map fun c => if c = '<' then ' ' else c

/-- The decoder's fixed-offset read: len characters starting at offset a. -/
def slice (l : MrzChars) (a len : Nat) : MrzChars := (l.drop a).take len

/-- Split the 39-character name field at the first occurrence of the <<
delimiter that separates the surname from the given names. -/
def splitNames : MrzChars → MrzChars × MrzChars
  | [] => ([], [])
  | c :: rest =>
    if c == '<' && rest.head? == some '<' then ([], rest.tail)
    else
      let p := splitNames rest
      (c :: p.1, p.2)

/-- Modelled from the spec: the passport fields a 2-line 44-character MRZ
block carries (spec section 4.4). The sex mark is kept as a one-character
run. -/
structure MrzFields where
  documentType : MrzChars
  issuingState : MrzChars
  surname : MrzChars
  givenNames : MrzChars
  documentNumber : MrzChars
  nationality : MrzChars
  birthDate : MrzChars
  sex : MrzChars
  expiryDate : MrzChars
  personalNumber : MrzChars
deriving DecidableEq

/-- Modelled from the spec: line 1 of the 44-character grid - document type
(2 characters), issuing state (3), then the 39-character name field holding
the surname and the given names separated by the << delimiter and padded with
the filler. -/
def encodeLine1 (f : MrzFields) : MrzChars :=
  padTrail f.documentType 2 ++
    (f.issuingState ++
      padTrail (nameToMrz f.surname ++ ('<' :: '<' :: nameToMrz f.givenNames)) 39)

/-- The document-number span of line 2: the document number padded to 9. -/
def dnField (f : MrzFields) : MrzChars := padTrail f.documentNumber 9

/-- The personal-number span of line 2: the personal number padded to 14. -/
def pnField (f : MrzFields) : MrzChars := padTrail f.personalNumber 14

/-- The document-number check digit of line 2. -/
def dnCheck (f : MrzFields) : MrzChars := [digitChar (checkDigit (dnField f))]

/-- The birth-date check digit of line 2. -/
def bdCheck (f : MrzFields) : MrzChars := [digitChar (checkDigit f.birthDate)]

/-- The expiry-date check digit of line 2. -/
def edCheck (f : MrzFields) : MrzChars := [digitChar (checkDigit f.expiryDate)]

/-- The personal-number check digit of line 2. -/
def pnCheck (f : MrzFields) : MrzChars := [digitChar (checkDigit (pnField f))]

/-- The composite check digit, computed over the checksum-bearing spans of
line 2 (document number, birth date and expiry date with their check digits,
and the personal-number span with its check digit). -/
def compCheck (f : MrzFields) : MrzChars :=
  [digitChar (checkDigit
    ((dnField f ++ dnCheck f) ++
      ((f.birthDate ++ bdCheck f) ++
        ((f.expiryDate ++ edCheck f) ++ (pnField f ++ pnCheck f)))))]

/-- Modelled from the spec: line 2 of the grid - document number (9) with its
check digit, nationality (3), birth date (6) with its check digit, sex (1),
expiry date (6) with its check digit, personal number (14) with its check
digit, and the composite check digit over the checksum-bearing spans. -/
def encodeLine2 (f : MrzFields) : MrzChars :=
  dnField f ++
    (dnCheck f ++
      (f.nationality ++
        (f.birthDate ++
          (bdCheck f ++
            (f.sex ++
              (f.expiryDate ++
                (edCheck f ++
                  (pnField f ++ (pnCheck f ++ compCheck f)))))))))

/-- The characters the composite check digit covers: positions 0-9, 13-19 and
21-42 of line 2. -/
def compositeData (l2 : MrzChars) : MrzChars :=
  slice l2 0 10 ++ (slice l2 13 7 ++ slice l2 21 22)

/-- A check-digit position matches the digit computed over its data span. -/
def validCheck (data cd : MrzChars) : Bool := cd == [digitChar (checkDigit data)]

/-- Modelled from the spec: the check digits of the checksum-bearing fields
named in section 4.4 (document number, birth date, expiry date, composite)
all validate on line 2. -/
def mrzChecksValid (l2 : MrzChars) : Bool :=
  validCheck (slice l2 0 9) (slice l2 9 1) &&
  validCheck (slice l2 13 6) (slice l2 19 1) &&
  validCheck (slice l2 21 6) (slice l2 27 1) &&
  validCheck (compositeData l2) (slice l2 43 1)

/-- Modelled from the spec: decoding the positional sub-fields at their fixed
offsets and lengths (spec section 4.4). Decoding fails only when the lines do
not match the 44-character grid; check digits never discard a value. -/
def decodeMrz (line1 line2 : MrzChars) : Option MrzFields :=
  if line1.length = 44 ∧ line2.length = 44 then
    some
      { documentType := stripTrail (slice line1 0 2)
        issuingState := slice line1 2 3
        surname := mrzToName (splitNames (slice line1 5 39)).1
        givenNames := mrzToName (stripTrail (splitNames (slice line1 5 39)).2)
        documentNumber := stripTrail (slice line2 0 9)
        nationality := slice line2 10 3
        birthDate := slice line2 13 6
        sex := slice line2 20 1
        expiryDate := slice line2 21 6
        personalNumber := stripTrail (slice line2 28 14) }
  else none

/-- The checksum-bearing fields of spec section 4.4. -/
inductive CheckedField
  | docNumber
  | birth
  | expiry
  | composite
deriving DecidableEq

/-- The data span a field's check digit covers on line 2. -/
def fieldData (fld : CheckedField) (l2 : MrzChars) : MrzChars :=
  match fld with
  | CheckedField.docNumber => slice l2 0 9
  | CheckedField.birth => slice l2 13 6
  | CheckedField.expiry => slice l2 21 6
  | CheckedField.composite => compositeData l2

/-- The position of a field's check digit on line 2. -/
def cdPos : CheckedField → Nat
  | CheckedField.docNumber => 9
  | CheckedField.birth => 19
  | CheckedField.expiry => 27
  | CheckedField.composite => 43

/-- The value the decoder returns for a checksum-bearing field, read from the
data span regardless of the check digit. -/
def fieldValue (fld : CheckedField) (l2 : MrzChars) : MrzChars :=
  match fld with
  | CheckedField.docNumber => stripTrail (slice l2 0 9)
  | CheckedField.birth => slice l2 13 6
  | CheckedField.expiry => slice l2 21 6
  | CheckedField.composite => compositeData l2

/-- Modelled from the spec: the per-field confidence policy of section 4.4 -
a valid check digit keeps full confidence, a failed one lowers the field's
confidence instead of discarding the value. -/
def fieldConfidence (fld : CheckedField) (l2 : MrzChars) : ℚ :=
  if validCheck (fieldData fld l2) (slice l2 (cdPos fld) 1) then 1 else 1 / 2

/-! ## Concrete inputs used by the witnesses and counterexamples -/

/-- A file outside the supported type set and over the stated size limit. -/
def oversizedDocx : UploadFile := { name := "report.docx", size := 20971520 }

/-- A component state with a document type chosen and the out-of-spec file
selected. -/
def docxState : UploadState :=
  { selectedType := "PASSPORT", selectedFile := some oversizedDocx,
    uploading := false, uploadStatus := "" }

/-- Another file outside the supported type set, dropped in the C8 witness. -/
def archiveFile : UploadFile := { name := "backup.zip", size := 4096 }

/-- The component's initial state (the useState defaults). -/
def initialState : UploadState :=
  { selectedType := "", selectedFile := none, uploading := false,
    uploadStatus := "" }

/-- A blank-page run: two required MRZ-derived fields, both with no
evidence. -/
def surnameSpec : FieldSpec :=
  { name := "surname", strategy := Strategy.mrzDerived,
    shape := DataShape.string, required := true }

/-- The second required field of the blank-page run. -/
def givenNamesSpec : FieldSpec :=
  { name := "given_names", strategy := Strategy.mrzDerived,
    shape := DataShape.string, required := true }

/-- Pairing the two required specs with the evidence a blank page yields. -/
def blankRun : List (FieldSpec × Option String) :=
  [(surnameSpec, none), (givenNamesSpec, none)]

/-- The spec's section 8 passport scenario, as synthetic source fields. -/
def erikssonFields : MrzFields :=
  { documentType := ['P']
    issuingState := ['U', 'T', 'O']
    surname := ['E', 'R', 'I', 'K', 'S', 'S', 'O', 'N']
    givenNames := ['A', 'N', 'N', 'A', ' ', 'M', 'A', 'R', 'I', 'A']
    documentNumber := ['L', '8', '9', '8', '9', '0', '2', 'C']
    nationality := ['U', 'T', 'O']
    birthDate := ['6', '9', '0', '8', '0', '6']
    sex := ['F']
    expiryDate := ['9', '4', '0', '6', '2', '3']
    personalNumber := [] }

/-- A 44-character line 2 whose four check digits are all valid: every data
character is the filler, so every check digit computes to 0. -/
def zeroLine2 : MrzChars :=
  ['<', '<', '<', '<', '<', '<', '<', '<', '<', '0',
    '<', '<', '<', '<', '<', '<', '<', '<', '<', '0',
    '<', '<', '<', '<', '<', '<', '<', '0', '<', '<',
    '<', '<', '<', '<', '<', '<', '<', '<', '<', '<',
    '<', '<', '0', '0']

/-! ## Claims about the upload component and the results table -/

/-- C7 counterexample: with a document type chosen, the upload handler sends a
20MB .docx file to the upload endpoint - a concrete file outside the supported
type set and over the stated size limit is posted, so the consumer does not
enforce the limits before invocation. -/
theorem C7_counterexample_docx_posted :
    matchesAccept oversizedDocx = false ∧
    maxUploadSizeBytes < oversizedDocx.size ∧
    (handleUpload docxState).2 =
      some { file := oversizedDocx, document_type := "PASSPORT" } := by
  decide

/-- C7 (amended): the upload component checks only that a file and a document
type are selected before posting; whenever both are present the request
carries the selected file unexamined, with no extension or size check. -/
theorem C7_upload_checks_presence_only (s : UploadState) (f : UploadFile)
    (hf : s.selectedFile = some f) (ht : s.selectedType ≠ "") :
    (handleUpload s).2 = some { file := f, document_type := s.selectedType } := by
  simp [handleUpload, hf, ht]

/-- C7 witness: the amended claim at the concrete out-of-spec state. -/
theorem C7_upload_checks_presence_only_witness :
    (handleUpload docxState).2 =
      some { file := oversizedDocx, document_type := "PASSPORT" } :=
  C7_upload_checks_presence_only docxState oversizedDocx rfl (by decide)

/-- C8: a drag-and-dropped file is selected as-is - the first dropped file
becomes the selection with no extension or MIME-type check, and with any
non-empty document type the upload handler then posts it. -/
theorem C8_drop_selects_any_file (s : UploadState) (f : UploadFile)
    (rest : List UploadFile) (t : String) (ht : t ≠ "") :
    (handleDrop s (f :: rest)).selectedFile = some f ∧
    (handleUpload
        { handleDrop s (f :: rest) with selectedType := t }).2 =
      some { file := f, document_type := t } := by
  refine ⟨rfl, ?_⟩
  simp [handleDrop, handleUpload, ht]

/-- C8 witness: a .zip file, outside the accept filter's extension list, is
selected by the drop handler and posted. -/
theorem C8_drop_selects_any_file_witness :
    matchesAccept archiveFile = false ∧
    ((handleDrop initialState [archiveFile]).selectedFile = some archiveFile ∧
      (handleUpload
          { handleDrop initialState [archiveFile] with
            selectedType := "EMIRATES_ID" }).2 =
        some { file := archiveFile, document_type := "EMIRATES_ID" }) :=
  ⟨by decide,
    C8_drop_selects_any_file initialState archiveFile [] "EMIRATES_ID" (by decide)⟩

/-- C9: no upload request without both a file and a type - when either is
missing the handler sends nothing, changes only the status message (the
selection is untouched) and the submit button is disabled; and any request
that is sent carries the selected file and a non-empty document type. -/
theorem C9_request_requires_both (s : UploadState) :
    ((s.selectedFile = none ∨ s.selectedType = "") →
      (handleUpload s).2 = none ∧
      (handleUpload s).1.selectedFile = s.selectedFile ∧
      (handleUpload s).1.selectedType = s.selectedType ∧
      (handleUpload s).1.uploadStatus =
        "Please select both a document type and file" ∧
      uploadButtonDisabled s = true) ∧
    ∀ r : UploadRequest, (handleUpload s).2 = some r →
      s.selectedFile = some r.file ∧ r.document_type = s.selectedType ∧
        r.document_type ≠ "" := by
  cases hf : s.selectedFile with
  | none =>
    refine ⟨fun _ => ?_, fun r hr => ?_⟩
    · simp [handleUpload, hf, uploadButtonDisabled]
    · simp [handleUpload, hf] at hr
  | some f =>
    by_cases ht : s.selectedType = ""
    · refine ⟨fun _ => ?_, fun r hr => ?_⟩
      · simp [handleUpload, hf, ht, uploadButtonDisabled]
      · simp [handleUpload, hf, ht] at hr
    · refine ⟨fun h => ?_, fun r hr => ?_⟩
      · rcases h with h | h
        · exact absurd h (by simp)
        · exact absurd h ht
      · simp [handleUpload, hf, ht] at hr
        subst hr
        exact ⟨rfl, rfl, ht⟩

/-- C10: the results table renders the Not found placeholder for every falsy
field value, so an empty-string value displays exactly like a null one, while
any non-empty value displays itself. -/
theorem C10_falsy_renders_not_found :
    renderFieldValue (some "") = "Not found" ∧
    renderFieldValue none = "Not found" ∧
    renderFieldValue (some "") = renderFieldValue none ∧
    ∀ s : String, s ≠ "" → renderFieldValue (some s) = s := by
  refine ⟨by simp [renderFieldValue], rfl, by simp [renderFieldValue], ?_⟩
  intro s hs
  simp [renderFieldValue, hs]

/-! ## Claims about the modelled pipeline -/

/-- C1: the Field Mapper emits exactly one ExtractedField per FieldSpec of the
schema - same count, same names in order, every emitted name present in the
schema - and a required field with no evidence is emitted with a null value
rather than dropped. -/
theorem C1_mapper_matches_schema (schema : List FieldSpec) (evidence : Evidence) :
    (mapFields schema evidence).length = schema.length ∧
    (mapFields schema evidence).map (fun ef => ef.field_name) =
      schema.map (fun fs => fs.name) ∧
    (∀ ef ∈ mapFields schema evidence, ∃ fs ∈ schema, fs.name = ef.field_name) ∧
    ∀ fs ∈ schema, fs.required = true → evidence fs.name = none →
      ({ field_name := fs.name, field_value := none, confidence := 0,
          page_number := 0 } : ExtractedField) ∈ mapFields schema evidence := by
  refine ⟨List.length_map _ _, ?_, ?_, ?_⟩
  · unfold mapFields
    rw [List.map_map]
    apply List.map_congr_left
    intro fs _
    cases hev : evidence fs.name with
    | none => simp [hev]
    | some v =>
      rcases v with ⟨v, c, p⟩
      simp [hev]
  · intro ef hef
    unfold mapFields at hef
    rw [List.mem_map] at hef
    obtain ⟨fs, hfs, hF⟩ := hef
    refine ⟨fs, hfs, ?_⟩
    rw [← hF]
    cases hev : evidence fs.name with
    | none => simp [hev]
    | some v =>
      rcases v with ⟨v, c, p⟩
      simp [hev]
  · intro fs hfs _ hnone
    unfold mapFields
    rw [List.mem_map]
    exact ⟨fs, hfs, by rw [hnone]⟩

/-- C2 counterexample: the blank-page run - both required fields null -
resolves to the partial status although not a single required field is
non-null, so the claim's "partial exactly when at least one required field is
non-null" fails on this input. -/
theorem C2_counterexample_blank_page :
    resolveStatus blankRun = Status.partialResult ∧
    (blankRun.any fun p => p.1.required && p.2.isSome) = false := by
  decide

/-- C2 (amended): a completing run resolves to done exactly when every
required field is non-null and to the partial status exactly when at least
one required field is null (the blank-page run with every required field null
included); every completing run receives one of these two statuses. -/
theorem C2_resolver_done_or_partial (run : List (FieldSpec × Option String)) :
    (resolveStatus run = Status.done ↔
      ∀ p ∈ run, p.1.required = true → p.2 ≠ none) ∧
    (resolveStatus run = Status.partialResult ↔
      ∃ p ∈ run, p.1.required = true ∧ p.2 = none) ∧
    (resolveStatus run = Status.done ∨
      resolveStatus run = Status.partialResult) := by
  unfold resolveStatus
  by_cases h : run.all (fun p => !p.1.required || p.2.isSome) = true
  · rw [if_pos h]
    rw [List.all_eq_true] at h
    refine ⟨?_, ?_, Or.inl rfl⟩
    · simp only [true_iff]
      intro p hp hreq
      have := h p hp
      rw [hreq] at this
      simp only [Bool.not_true, Bool.false_or] at this
      exact Option.isSome_iff_ne_none.1 this
    · simp only [iff_false, reduceCtorEq, false_iff]
      rintro ⟨p, hp, hreq, hval⟩
      have := h p hp
      rw [hreq, hval] at this
      simp at this
  · rw [if_neg h]
    rw [List.all_eq_true] at h
    push_neg at h
    obtain ⟨p, hp, hb⟩ := h
    refine ⟨?_, ?_, Or.inr rfl⟩
    · simp only [iff_false, reduceCtorEq, false_iff]
      intro hall
      apply hb
      rcases hreq : p.1.required with _ | _
      · simp [hreq]
      · have := hall p hp hreq
        simp [hreq, Option.isSome_iff_ne_none.2 this]
    · simp only [true_iff]
      refine ⟨p, hp, ?_⟩
      rcases hreq : p.1.required with _ | _
      · exact absurd (by simp [hreq]) hb
      · refine ⟨rfl, ?_⟩
        rcases hval : p.2 with _ | v
        · rfl
        · exact absurd (by simp [hval]) hb

/-- C5: the overall confidence of a record is the arithmetic mean of its
non-null fields' confidences - it is 0 when every field is null, it satisfies
the mean equation when some field is non-null, and when every non-null field
has the same confidence the overall confidence equals it. -/
theorem C5_overall_confidence_is_mean (fields : List ExtractedField) :
    ((∀ f ∈ fields, f.field_value = none) → overallConfidence fields = 0) ∧
    ((fields.filter fun f => f.field_value.isSome) ≠ [] →
      overallConfidence fields *
          ((fields.filter fun f => f.field_value.isSome).length : ℚ) =
        ((fields.filter fun f => f.field_value.isSome).map
            fun f => f.confidence).sum) ∧
    ∀ c : ℚ, (fields.filter fun f => f.field_value.isSome) ≠ [] →
      (∀ f ∈ fields, f.field_value ≠ none → f.confidence = c) →
      overallConfidence fields = c := by
  refine ⟨?_, ?_, ?_⟩
  · intro hnull
    have hfil : (fields.filter fun f => f.field_value.isSome) = [] := by
      rw [List.filter_eq_nil_iff]
      intro f hf
      simp [hnull f hf]
    simp [overallConfidence, hfil]
  · intro hne
    have hlen : (fields.filter fun f => f.field_value.isSome).length ≠ 0 :=
      fun h0 => hne (List.length_eq_zero.1 h0)
    have hcast : (((fields.filter fun f => f.field_value.isSome).length : ℚ)) ≠ 0 :=
      Nat.cast_ne_zero.2 hlen
    simp only [overallConfidence, if_neg hlen]
    exact div_mul_cancel₀ _ hcast
  · intro c hne hconf
    have hlen : (fields.filter fun f => f.field_value.isSome).length ≠ 0 :=
      fun h0 => hne (List.length_eq_zero.1 h0)
    have hcast : (((fields.filter fun f => f.field_value.isSome).length : ℚ)) ≠ 0 :=
      Nat.cast_ne_zero.2 hlen
    have hrep : ((fields.filter fun f => f.field_value.isSome).map
        fun f => f.confidence) =
        List.replicate (fields.filter fun f => f.field_value.isSome).length c := by
      apply List.eq_replicate_iff.2
      refine ⟨List.length_map _ _, ?_⟩
      intro x hx
      rw [List.mem_map] at hx
      obtain ⟨f, hf, hfx⟩ := hx
      rw [List.mem_filter] at hf
      rw [← hfx]
      exact hconf f hf.1 (Option.isSome_iff_ne_none.1 hf.2)
    simp only [overallConfidence, if_neg hlen, hrep, List.sum_replicate,
      nsmul_eq_mul]
    exact mul_div_cancel_left₀ c hcast

/-- C6: the status lifecycle never regresses - every transition strictly
increases the lifecycle rank, no transition leaves a terminal status, and
every transition chain starting at pending is an initial part of pending,
processing, then one terminal status. -/
theorem C6_status_never_regresses :
    (∀ s t, StatusStep s t → statusRank s < statusRank t) ∧
    (∀ s t, isTerminal s = true → ¬ StatusStep s t) ∧
    ∀ l : List Status, l.Chain' StatusStep → l.head? = some Status.pending →
      l = [Status.pending] ∨ l = [Status.pending, Status.processing] ∨
        ∃ t, isTerminal t = true ∧
          l = [Status.pending, Status.processing, t] := by
  refine ⟨?_, ?_, ?_⟩
  · intro s t h
    cases h <;> simp [statusRank]
  · intro s t hterm h
    cases h <;> simp [isTerminal] at hterm
  · intro l hch hh
    cases l with
    | nil => simp at hh
    | cons a l1 =>
      have ha : a = Status.pending := by simpa using hh
      subst ha
      cases l1 with
      | nil => exact Or.inl rfl
      | cons b l2 =>
        have hab := List.chain'_cons.1 hch
        have hb : b = Status.processing := by cases hab.1; rfl
        subst hb
        cases l2 with
        | nil => exact Or.inr (Or.inl rfl)
        | cons c l3 =>
          have hbc := List.chain'_cons.1 hab.2
          cases hbc.1 with
          | toDone =>
            cases l3 with
            | nil => exact Or.inr (Or.inr ⟨Status.done, rfl, rfl⟩)
            | cons d l4 =>
              exact absurd (List.chain'_cons.1 hbc.2).1 (by intro hsd; cases hsd)
          | toPartialResult =>
            cases l3 with
            | nil => exact Or.inr (Or.inr ⟨Status.partialResult, rfl, rfl⟩)
            | cons d l4 =>
              exact absurd (List.chain'_cons.1 hbc.2).1 (by intro hsd; cases hsd)
          | toFailed =>
            cases l3 with
            | nil => exact Or.inr (Or.inr ⟨Status.failed, rfl, rfl⟩)
            | cons d l4 =>
              exact absurd (List.chain'_cons.1 hbc.2).1 (by intro hsd; cases hsd)

/-! ## MRZ helper lemmas -/

theorem length_padTrail (l : MrzChars) (n : Nat) (h : l.length ≤ n) :
    (padTrail l n).length = n := by
  simp [padTrail]
  omega

theorem dropWhile_replicate_append (p : Char → Bool) (a : Char) (k : Nat)
    (t : List Char) (h : p a = true) :
    List.dropWhile p (List.replicate k a ++ t) = List.dropWhile p t := by
  induction k with
  | zero => simp
  | succ k ih => simp [List.replicate_succ, List.dropWhile_cons, h, ih]

theorem mem_of_getLast?_eq (l : List Char) (x : Char) (h : l.getLast? = some x) :
    x ∈ l := by
  have hx : x ∈ l.getLast? := h
  obtain ⟨hne, he⟩ := List.mem_getLast?_eq_getLast hx
  exact he ▸ List.getLast_mem hne

theorem stripTrail_append_replicate (l : MrzChars) (k : Nat)
    (h : l.getLast? ≠ some '<') :
    stripTrail (l ++ List.replicate k '<') = l := by
  unfold stripTrail
  rw [List.reverse_append, List.reverse_replicate,
    dropWhile_replicate_append _ _ _ _ (by decide)]
  have hid : List.dropWhile (fun c => c == '<') l.reverse = l.reverse := by
    cases hr : l.reverse with
    | nil => rfl
    | cons x xs =>
      have hx : l.getLast? = some x := by
        rw [← List.head?_reverse, hr]
        rfl
      have hxne : x ≠ '<' := fun he => h (by rw [hx, he])
      rw [List.dropWhile_cons, if_neg (by simp [hxne])]
  rw [hid, List.reverse_reverse]

theorem stripTrail_padTrail (l : MrzChars) (n : Nat)
    (h : l.getLast? ≠ some '<') :
    stripTrail (padTrail l n) = l :=
  stripTrail_append_replicate l _ h

theorem map_eq_self (f : Char → Char) (l : MrzChars) (h : ∀ c ∈ l, f c = c) :
    l.map f = l := by
  calc l.map f = l.map id := List.map_congr_left h
  _ = l := l.map_id

theorem mrzToName_eq_self (l : MrzChars) (h : ∀ c ∈ l, c ≠ '<') :
    mrzToName l = l :=
  map_eq_self _ l fun c hc => if_neg (h c hc)

theorem nameToMrz_eq_self (l : MrzChars) (h : ∀ c ∈ l, c ≠ ' ') :
    nameToMrz l = l :=
  map_eq_self _ l fun c hc => if_neg (h c hc)

theorem mrzToName_nameToMrz (l : MrzChars) (h : ∀ c ∈ l, c ≠ '<') :
    mrzToName (nameToMrz l) = l := by
  unfold mrzToName nameToMrz
  rw [List.map_map]
  apply map_eq_self
  intro c hc
  by_cases hsp : c = ' '
  · subst hsp
    simp
  · simp [Function.comp, hsp, h c hc]

theorem splitNames_append (s g : MrzChars) (h : ∀ c ∈ s, c ≠ '<') :
    splitNames (s ++ ('<' :: '<' :: g)) = (s, g) := by
  induction s with
  | nil => simp [splitNames]
  | cons c cs ih =>
    have hc : c ≠ '<' := h c (List.mem_cons_self _ _)
    have ihh := ih fun x hx => h x (List.mem_cons_of_mem _ hx)
    simp [splitNames, hc, ihh]

theorem slice_self (l : MrzChars) (len : Nat) (h : l.length = len) :
    slice l 0 len = l := by
  unfold slice
  rw [List.drop_zero, ← h, List.take_length]

theorem slice_front (m r : MrzChars) (len : Nat) (h : m.length = len) :
    slice (m ++ r) 0 len = m := by
  unfold slice
  rw [List.drop_zero, List.take_left' h]

theorem slice_after (p t : MrzChars) (off a len n : Nat) (hp : p.length = n)
    (ha : off = n + a) :
    slice (p ++ t) off len = slice t a len := by
  subst ha
  unfold slice
  have hd : (p ++ t).drop (n + a) = t.drop a := by
    have h2 : ((p ++ t).drop n).drop a = (p ++ t).drop (n + a) :=
      List.drop_drop a n (p ++ t)
    rw [List.drop_left' hp] at h2
    exact h2.symm
  rw [hd]

theorem slice_append_left (l r : MrzChars) (a len : Nat)
    (h : a + len ≤ l.length) :
    slice (l ++ r) a len = slice l a len := by
  unfold slice
  have h1 : a ≤ l.length := by omega
  have h2 : len ≤ (l.drop a).length := by
    rw [List.length_drop]
    omega
  rw [List.drop_append_eq_append_drop, Nat.sub_eq_zero_of_le h1, List.drop_zero,
    List.take_append_eq_append_take, Nat.sub_eq_zero_of_le h2, List.take_zero,
    List.append_nil]

theorem slice_take (l : MrzChars) (p a len : Nat) (h : a + len ≤ p) :
    slice (l.take p) a len = slice l a len := by
  unfold slice
  rw [List.drop_take, List.take_take, Nat.min_eq_left (by omega)]

theorem length_dnField (f : MrzFields) (h : f.documentNumber.length ≤ 9) :
    (dnField f).length = 9 :=
  length_padTrail _ _ h

theorem length_pnField (f : MrzFields) (h : f.personalNumber.length ≤ 14) :
    (pnField f).length = 14 :=
  length_padTrail _ _ h

theorem eL1_dt (f : MrzFields) (hdt : f.documentType.length ≤ 2) :
    slice (encodeLine1 f) 0 2 = padTrail f.documentType 2 := by
  unfold encodeLine1
  exact slice_front _ _ _ (length_padTrail _ _ hdt)

theorem eL1_iss (f : MrzFields) (hdt : f.documentType.length ≤ 2)
    (hiss : f.issuingState.length = 3) :
    slice (encodeLine1 f) 2 3 = f.issuingState := by
  unfold encodeLine1
  rw [slice_after _ _ 2 0 3 2 (length_padTrail _ _ hdt) (by norm_num)]
  exact slice_front _ _ _ hiss

theorem eL1_name (f : MrzFields) (hdt : f.documentType.length ≤ 2)
    (hiss : f.issuingState.length = 3)
    (hnm : (nameToMrz f.surname ++ ('<' :: '<' :: nameToMrz f.givenNames)).length ≤ 39) :
    slice (encodeLine1 f) 5 39 =
      padTrail (nameToMrz f.surname ++ ('<' :: '<' :: nameToMrz f.givenNames)) 39 := by
  unfold encodeLine1
  rw [slice_after _ _ 5 3 39 2 (length_padTrail _ _ hdt) (by norm_num)]
  rw [slice_after _ _ 3 0 39 3 hiss (by norm_num)]
  exact slice_self _ _ (length_padTrail _ _ hnm)

theorem eL2_dn (f : MrzFields) (hdn : f.documentNumber.length ≤ 9) :
    slice (encodeLine2 f) 0 9 = dnField f := by
  unfold encodeLine2
  exact slice_front _ _ _ (length_dnField f hdn)

theorem eL2_cdn (f : MrzFields) (hdn : f.documentNumber.length ≤ 9) :
    slice (encodeLine2 f) 9 1 = dnCheck f := by
  unfold encodeLine2
  rw [slice_after _ _ 9 0 1 9 (length_dnField f hdn) (by norm_num)]
  exact slice_front _ _ _ rfl

theorem eL2_nat (f : MrzFields) (hdn : f.documentNumber.length ≤ 9)
    (hnat : f.nationality.length = 3) :
    slice (encodeLine2 f) 10 3 = f.nationality := by
  unfold encodeLine2
  rw [slice_after _ _ 10 1 3 9 (length_dnField f hdn) (by norm_num)]
  rw [slice_after (dnCheck f) _ 1 0 3 1 rfl (by norm_num)]
  exact slice_front _ _ _ hnat

theorem eL2_bd (f : MrzFields) (hdn : f.documentNumber.length ≤ 9)
    (hnat : f.nationality.length = 3) (hbd : f.birthDate.length = 6) :
    slice (encodeLine2 f) 13 6 = f.birthDate := by
  unfold encodeLine2
  rw [slice_after _ _ 13 4 6 9 (length_dnField f hdn) (by norm_num)]
  rw [slice_after (dnCheck f) _ 4 3 6 1 rfl (by norm_num)]
  rw [slice_after _ _ 3 0 6 3 hnat (by norm_num)]
  exact slice_front _ _ _ hbd

theorem eL2_cbd (f : MrzFields) (hdn : f.documentNumber.length ≤ 9)
    (hnat : f.nationality.length = 3) (hbd : f.birthDate.length = 6) :
    slice (encodeLine2 f) 19 1 = bdCheck f := by
  unfold encodeLine2
  rw [slice_after _ _ 19 10 1 9 (length_dnField f hdn) (by norm_num)]
  rw [slice_after (dnCheck f) _ 10 9 1 1 rfl (by norm_num)]
  rw [slice_after _ _ 9 6 1 3 hnat (by norm_num)]
  rw [slice_after _ _ 6 0 1 6 hbd (by norm_num)]
  exact slice_front _ _ _ rfl

theorem eL2_sex (f : MrzFields) (hdn : f.documentNumber.length ≤ 9)
    (hnat : f.nationality.length = 3) (hbd : f.birthDate.length = 6)
    (hsex : f.sex.length = 1) :
    slice (encodeLine2 f) 20 1 = f.sex := by
  unfold encodeLine2
  rw [slice_after _ _ 20 11 1 9 (length_dnField f hdn) (by norm_num)]
  rw [slice_after (dnCheck f) _ 11 10 1 1 rfl (by norm_num)]
  rw [slice_after _ _ 10 7 1 3 hnat (by norm_num)]
  rw [slice_after _ _ 7 1 1 6 hbd (by norm_num)]
  rw [slice_after (bdCheck f) _ 1 0 1 1 rfl (by norm_num)]
  exact slice_front _ _ _ hsex

theorem eL2_ed (f : MrzFields) (hdn : f.documentNumber.length ≤ 9)
    (hnat : f.nationality.length = 3) (hbd : f.birthDate.length = 6)
    (hsex : f.sex.length = 1) (hed : f.expiryDate.length = 6) :
    slice (encodeLine2 f) 21 6 = f.expiryDate := by
  unfold encodeLine2
  rw [slice_after _ _ 21 12 6 9 (length_dnField f hdn) (by norm_num)]
  rw [slice_after (dnCheck f) _ 12 11 6 1 rfl (by norm_num)]
  rw [slice_after _ _ 11 8 6 3 hnat (by norm_num)]
  rw [slice_after _ _ 8 2 6 6 hbd (by norm_num)]
  rw [slice_after (bdCheck f) _ 2 1 6 1 rfl (by norm_num)]
  rw [slice_after _ _ 1 0 6 1 hsex (by norm_num)]
  exact slice_front _ _ _ hed

theorem eL2_ced (f : MrzFields) (hdn : f.documentNumber.length ≤ 9)
    (hnat : f.nationality.length = 3) (hbd : f.birthDate.length = 6)
    (hsex : f.sex.length = 1) (hed : f.expiryDate.length = 6) :
    slice (encodeLine2 f) 27 1 = edCheck f := by
  unfold encodeLine2
  rw [slice_after _ _ 27 18 1 9 (length_dnField f hdn) (by norm_num)]
  rw [slice_after (dnCheck f) _ 18 17 1 1 rfl (by norm_num)]
  rw [slice_after _ _ 17 14 1 3 hnat (by norm_num)]
  rw [slice_after _ _ 14 8 1 6 hbd (by norm_num)]
  rw [slice_after (bdCheck f) _ 8 7 1 1 rfl (by norm_num)]
  rw [slice_after _ _ 7 6 1 1 hsex (by norm_num)]
  rw [slice_after _ _ 6 0 1 6 hed (by norm_num)]
  exact slice_front _ _ _ rfl

theorem eL2_pn (f : MrzFields) (hdn : f.documentNumber.length ≤ 9)
    (hnat : f.nationality.length = 3) (hbd : f.birthDate.length = 6)
    (hsex : f.sex.length = 1) (hed : f.expiryDate.length = 6)
    (hpn : f.personalNumber.length ≤ 14) :
    slice (encodeLine2 f) 28 14 = pnField f := by
  unfold encodeLine2
  rw [slice_after _ _ 28 19 14 9 (length_dnField f hdn) (by norm_num)]
  rw [slice_after (dnCheck f) _ 19 18 14 1 rfl (by norm_num)]
  rw [slice_after _ _ 18 15 14 3 hnat (by norm_num)]
  rw [slice_after _ _ 15 9 14 6 hbd (by norm_num)]
  rw [slice_after (bdCheck f) _ 9 8 14 1 rfl (by norm_num)]
  rw [slice_after _ _ 8 7 14 1 hsex (by norm_num)]
  rw [slice_after _ _ 7 1 14 6 hed (by norm_num)]
  rw [slice_after (edCheck f) _ 1 0 14 1 rfl (by norm_num)]
  exact slice_front _ _ _ (length_pnField f hpn)

theorem eL2_comp (f : MrzFields) (hdn : f.documentNumber.length ≤ 9)
    (hnat : f.nationality.length = 3) (hbd : f.birthDate.length = 6)
    (hsex : f.sex.length = 1) (hed : f.expiryDate.length = 6)
    (hpn : f.personalNumber.length ≤ 14) :
    slice (encodeLine2 f) 43 1 = compCheck f := by
  unfold encodeLine2
  rw [slice_after _ _ 43 34 1 9 (length_dnField f hdn) (by norm_num)]
  rw [slice_after (dnCheck f) _ 34 33 1 1 rfl (by norm_num)]
  rw [slice_after _ _ 33 30 1 3 hnat (by norm_num)]
  rw [slice_after _ _ 30 24 1 6 hbd (by norm_num)]
  rw [slice_after (bdCheck f) _ 24 23 1 1 rfl (by norm_num)]
  rw [slice_after _ _ 23 22 1 1 hsex (by norm_num)]
  rw [slice_after _ _ 22 16 1 6 hed (by norm_num)]
  rw [slice_after (edCheck f) _ 16 15 1 1 rfl (by norm_num)]
  rw [slice_after _ _ 15 1 1 14 (length_pnField f hpn) (by norm_num)]
  rw [slice_after (pnCheck f) _ 1 0 1 1 rfl (by norm_num)]
  exact slice_self _ _ rfl

theorem eL2_c0 (f : MrzFields) (hdn : f.documentNumber.length ≤ 9) :
    slice (encodeLine2 f) 0 10 = dnField f ++ dnCheck f := by
  unfold encodeLine2
  rw [← List.append_assoc]
  exact slice_front _ _ _ (by simp [length_dnField f hdn, dnCheck])

theorem eL2_c13 (f : MrzFields) (hdn : f.documentNumber.length ≤ 9)
    (hnat : f.nationality.length = 3) (hbd : f.birthDate.length = 6) :
    slice (encodeLine2 f) 13 7 = f.birthDate ++ bdCheck f := by
  unfold encodeLine2
  rw [slice_after _ _ 13 4 7 9 (length_dnField f hdn) (by norm_num)]
  rw [slice_after (dnCheck f) _ 4 3 7 1 rfl (by norm_num)]
  rw [slice_after _ _ 3 0 7 3 hnat (by norm_num)]
  rw [← List.append_assoc]
  exact slice_front _ _ _ (by simp [hbd, bdCheck])

theorem eL2_c21 (f : MrzFields) (hdn : f.documentNumber.length ≤ 9)
    (hnat : f.nationality.length = 3) (hbd : f.birthDate.length = 6)
    (hsex : f.sex.length = 1) (hed : f.expiryDate.length = 6)
    (hpn : f.personalNumber.length ≤ 14) :
    slice (encodeLine2 f) 21 22 =
      ((f.expiryDate ++ edCheck f) ++ pnField f) ++ pnCheck f := by
  unfold encodeLine2
  rw [slice_after _ _ 21 12 22 9 (length_dnField f hdn) (by norm_num)]
  rw [slice_after (dnCheck f) _ 12 11 22 1 rfl (by norm_num)]
  rw [slice_after _ _ 11 8 22 3 hnat (by norm_num)]
  rw [slice_after _ _ 8 2 22 6 hbd (by norm_num)]
  rw [slice_after (bdCheck f) _ 2 1 22 1 rfl (by norm_num)]
  rw [slice_after _ _ 1 0 22 1 hsex (by norm_num)]
  simp only [← List.append_assoc]
  exact slice_front _ _ _
    (by simp [hed, edCheck, pnCheck, length_pnField f hpn])

/-- C3: decoding is a right inverse of encoding on the 2-line 44-character
grid - encoding well-formed synthetic passport fields and decoding the result
recovers exactly the source fields, each read at its fixed offset and length,
and the encoded line's check digits are all valid. -/
theorem C3_mrz_round_trip (f : MrzFields)
    (hdt : f.documentType.length ≤ 2)
    (hdtl : f.documentType.getLast? ≠ some '<')
    (hiss : f.issuingState.length = 3)
    (hsur : ∀ c ∈ f.surname, c ≠ '<' ∧ c ≠ ' ')
    (hgiv : ∀ c ∈ f.givenNames, c ≠ '<')
    (hgivl : f.givenNames.getLast? ≠ some ' ')
    (hname : f.surname.length + 2 + f.givenNames.length ≤ 39)
    (hdn : f.documentNumber.length ≤ 9)
    (hdnl : f.documentNumber.getLast? ≠ some '<')
    (hnat : f.nationality.length = 3)
    (hbd : f.birthDate.length = 6)
    (hsex : f.sex.length = 1)
    (hed : f.expiryDate.length = 6)
    (hpn : f.personalNumber.length ≤ 14)
    (hpnl : f.personalNumber.getLast? ≠ some '<') :
    decodeMrz (encodeLine1 f) (encodeLine2 f) = some f ∧
    mrzChecksValid (encodeLine2 f) = true := by
  have hsurId : nameToMrz f.surname = f.surname :=
    nameToMrz_eq_self _ fun c hc => (hsur c hc).2
  have hnm :
      (nameToMrz f.surname ++ ('<' :: '<' :: nameToMrz f.givenNames)).length ≤ 39 := by
    simp only [List.length_append, List.length_cons, nameToMrz, List.length_map]
    omega
  have hL1 : (encodeLine1 f).length = 44 := by
    simp [encodeLine1, List.length_append, length_padTrail _ _ hdt,
      length_padTrail _ _ hnm, hiss]
  have hL2 : (encodeLine2 f).length = 44 := by
    simp [encodeLine2, List.length_append, length_dnField f hdn,
      length_pnField f hpn, hnat, hbd, hsex, hed, dnCheck, bdCheck, edCheck,
      pnCheck, compCheck]
  have hgivLast : (nameToMrz f.givenNames).getLast? ≠ some '<' := by
    unfold nameToMrz
    rw [List.getLast?_map]
    cases hg : f.givenNames.getLast? with
    | none => simp
    | some x =>
      have hxg : x ∈ f.givenNames := mem_of_getLast?_eq _ _ hg
      have hx1 : x ≠ '<' := hgiv x hxg
      have hx2 : x ≠ ' ' := fun he => hgivl (by rw [hg, he])
      simp only [Option.map_some']
      rw [if_neg hx2]
      simpa using hx1
  obtain ⟨k, hsplit⟩ : ∃ k,
      splitNames
          (padTrail (nameToMrz f.surname ++ ('<' :: '<' :: nameToMrz f.givenNames)) 39) =
        (f.surname, nameToMrz f.givenNames ++ List.replicate k '<') := by
    refine ⟨39 -
      (nameToMrz f.surname ++ ('<' :: '<' :: nameToMrz f.givenNames)).length, ?_⟩
    unfold padTrail
    rw [hsurId, List.append_assoc, List.cons_append, List.cons_append]
    exact splitNames_append _ _ fun c hc => (hsur c hc).1
  have hgivRT :
      mrzToName (stripTrail (nameToMrz f.givenNames ++ List.replicate k '<')) =
        f.givenNames := by
    rw [stripTrail_append_replicate _ _ hgivLast, mrzToName_nameToMrz _ hgiv]
  constructor
  · unfold decodeMrz
    rw [if_pos ⟨hL1, hL2⟩]
    rw [eL1_dt f hdt, eL1_iss f hdt hiss, eL1_name f hdt hiss hnm]
    rw [eL2_dn f hdn, eL2_nat f hdn hnat, eL2_bd f hdn hnat hbd,
      eL2_sex f hdn hnat hbd hsex, eL2_ed f hdn hnat hbd hsex hed,
      eL2_pn f hdn hnat hbd hsex hed hpn]
    rw [hsplit]
    rw [stripTrail_padTrail _ _ hdtl]
    rw [show (f.surname, nameToMrz f.givenNames ++ List.replicate k '<').1 =
      f.surname from rfl]
    rw [show (f.surname, nameToMrz f.givenNames ++ List.replicate k '<').2 =
      nameToMrz f.givenNames ++ List.replicate k '<' from rfl]
    rw [hgivRT]
    rw [mrzToName_eq_self _ fun c hc => (hsur c hc).1]
    unfold dnField pnField
    rw [stripTrail_padTrail _ _ hdnl, stripTrail_padTrail _ _ hpnl]
  · unfold mrzChecksValid
    rw [eL2_dn f hdn, eL2_cdn f hdn, eL2_bd f hdn hnat hbd,
      eL2_cbd f hdn hnat hbd, eL2_ed f hdn hnat hbd hsex hed,
      eL2_ced f hdn hnat hbd hsex hed]
    unfold compositeData
    rw [eL2_c0 f hdn, eL2_c13 f hdn hnat hbd,
      eL2_c21 f hdn hnat hbd hsex hed hpn, eL2_comp f hdn hnat hbd hsex hed hpn]
    simp [validCheck, dnCheck, bdCheck, edCheck, pnCheck, compCheck,
      List.append_assoc]

/-- C3 witness: the round trip at the spec's section 8 passport scenario. -/
theorem C3_mrz_round_trip_witness :
    decodeMrz (encodeLine1 erikssonFields) (encodeLine2 erikssonFields) =
      some erikssonFields ∧
    mrzChecksValid (encodeLine2 erikssonFields) = true :=
  C3_mrz_round_trip erikssonFields (by decide) (by decide) (by decide)
    (by decide) (by decide) (by decide) (by decide) (by decide) (by decide)
    (by decide) (by decide) (by decide) (by decide) (by decide) (by decide)

/-- C4: corrupting the check digit of a checksum-bearing field (document
number, birth date, expiry date, composite) leaves the value the decoder
returns for that field unchanged and strictly lowers its confidence - a
failed checksum never discards the field. -/
theorem C4_checksum_lowers_confidence (fld : CheckedField) (l2 : MrzChars)
    (c : Char) (hlen : l2.length = 44)
    (hvalid : validCheck (fieldData fld l2) (slice l2 (cdPos fld) 1) = true)
    (hc : c ≠ digitChar (checkDigit (fieldData fld l2))) :
    fieldValue fld (l2.set (cdPos fld) c) = fieldValue fld l2 ∧
    fieldConfidence fld (l2.set (cdPos fld) c) < fieldConfidence fld l2 := by
  have hp44 : cdPos fld < l2.length := by
    cases fld <;> simp [cdPos, hlen]
  have hset : l2.set (cdPos fld) c =
      l2.take (cdPos fld) ++ c :: l2.drop (cdPos fld + 1) := by
    rw [List.set_eq_take_append_cons_drop, if_pos hp44]
  have htklen : (l2.take (cdPos fld)).length = cdPos fld := by
    rw [List.length_take]
    exact Nat.min_eq_left (Nat.le_of_lt hp44)
  have hslice_pres : ∀ a len, a + len ≤ cdPos fld →
      slice (l2.set (cdPos fld) c) a len = slice l2 a len := by
    intro a len hal
    rw [hset]
    rw [slice_append_left _ _ _ _ (by rw [htklen]; exact hal)]
    exact slice_take l2 (cdPos fld) a len hal
  have hdata : fieldData fld (l2.set (cdPos fld) c) = fieldData fld l2 := by
    cases fld with
    | docNumber =>
      simp only [fieldData]
      exact hslice_pres 0 9 (by decide)
    | birth =>
      simp only [fieldData]
      exact hslice_pres 13 6 (by decide)
    | expiry =>
      simp only [fieldData]
      exact hslice_pres 21 6 (by decide)
    | composite =>
      simp only [fieldData, compositeData]
      rw [hslice_pres 0 10 (by decide), hslice_pres 13 7 (by decide),
        hslice_pres 21 22 (by decide)]
  have hcd : slice (l2.set (cdPos fld) c) (cdPos fld) 1 = [c] := by
    rw [hset]
    rw [slice_after _ _ (cdPos fld) 0 1 (cdPos fld) htklen (by omega)]
    simp [slice]
  constructor
  · cases fld with
    | docNumber =>
      simp only [fieldValue]
      rw [hslice_pres 0 9 (by decide)]
    | birth =>
      simp only [fieldValue]
      rw [hslice_pres 13 6 (by decide)]
    | expiry =>
      simp only [fieldValue]
      rw [hslice_pres 21 6 (by decide)]
    | composite =>
      simp only [fieldValue, compositeData]
      rw [hslice_pres 0 10 (by decide), hslice_pres 13 7 (by decide),
        hslice_pres 21 22 (by decide)]
  · unfold fieldConfidence
    rw [hdata, hcd, hvalid]
    have hfalse : validCheck (fieldData fld l2) [c] = false := by
      unfold validCheck
      exact beq_eq_false_iff_ne.2 (by simp [hc])
    rw [hfalse]
    simp
    norm_num

/-- C4 witness: corrupting the document-number check digit of a concrete
valid line to X keeps the value and strictly lowers the confidence. -/
theorem C4_checksum_lowers_confidence_witness :
    fieldValue CheckedField.docNumber (zeroLine2.set 9 'X') =
      fieldValue CheckedField.docNumber zeroLine2 ∧
    fieldConfidence CheckedField.docNumber (zeroLine2.set 9 'X') <
      fieldConfidence CheckedField.docNumber zeroLine2 :=
  C4_checksum_lowers_confidence CheckedField.docNumber zeroLine2 'X' (by decide)
    (by decide) (by decide)

end OcrDocs
